import Mathlib

/-!
# Verification of the JSON database core (`database.py`)

This file gives a shallow embedding, in Lean 4, of the similarity-search
database implemented in `database.py` (class `JSONDatabase`), and proves
properties of that embedding.

Modelling conventions:
* Python/JSON values are modelled by the inductive type `PyVal`; Python
  floats are modelled by rational numbers `ℚ` (exact arithmetic; the code
  performs only `+ - * / abs` on them, so the only float behaviour
  outside the model is IEEE rounding and NaN).
* Python dicts are modelled as association lists `List (String × PyVal)`
  (`Obj`); lookup takes the first matching binding.  Python's `dict.get`
  returns `None` both for a missing key and for a key bound to `None`;
  the model reproduces this via `(pyGet o k).getD .none`.
* The S3 blob store is modelled as an association list from object id to
  the stored record object (`Store`).  `put_object` overwrites,
  `list_objects_v2` enumerates keys in lexicographic key order (as S3
  does), `get_object` on a missing key reports `NoSuchKey`.
* The database is modelled in its `distance_method = "custom"`
  configuration, which is the configuration all the analysed claims are
  about; the `"euclidean"` branches (which depend on Python's
  platform-dependent `hash`) are never taken in this configuration.
* Fallible operations (`insert` can raise `IndexError` via
  `search_index.pop(0)` on an empty list, `_load_index` can raise
  `JSONDecodeError`/`AttributeError`) return `Except String _`.
-/

/-- A Python/JSON value as manipulated by `database.py`.  `int` and
`float` are distinct constructors because Python's `type(x)` (used by the
type-mismatch check in `_custom_json_distance`) distinguishes them, and
`bool` is likewise its own Python type (while *also* being a subclass of
`int`, which matters for `isinstance(val1, (int, float))`). -/
inductive PyVal : Type where
  | none : PyVal
  | bool (b : Bool) : PyVal
  | int (n : ℤ) : PyVal
  | float (q : ℚ) : PyVal
  | str (s : String) : PyVal
  | list (xs : List PyVal) : PyVal
  | dict (kvs : List (String × PyVal)) : PyVal

/-- A Python dict (a JSON object), as an association list. -/
abbrev Obj : Type := List (String × PyVal)

/-- The Python type tag of a value, as returned by `type(x)`. -/
inductive PyType : Type where
  | noneT | boolT | intT | floatT | strT | listT | dictT
deriving DecidableEq

def PyVal.ty : PyVal → PyType
  | .none => .noneT
  | .bool _ => .boolT
  | .int _ => .intT
  | .float _ => .floatT
  | .str _ => .strT
  | .list _ => .listT
  | .dict _ => .dictT

/-- `isinstance(x, (int, float))`: true for `bool`, `int` and `float`
values, since Python's `bool` is a subclass of `int`. -/
def PyVal.isNumeric : PyVal → Bool
  | .bool _ => true
  | .int _ => true
  | .float _ => true
  | _ => false

/-- The numeric value of a Python number (`True` counts as 1, `False`
as 0). -/
def PyVal.toRat : PyVal → ℚ
  | .bool b => if b then 1 else 0
  | .int n => (n : ℚ)
  | .float q => q
  | _ => 0

/-- Python's `s.startswith(p)`, modelled on the character lists of the
two strings (the model keeps kernel-computability, which the built-in
`String.startsWith` lacks). -/
def strStartsWith (s p : String) : Bool := p.data.isPrefixOf s.data

/-- `d.get(k)` on a Python dict: the first binding of `k`, if any. -/
def pyGet : Obj → String → Option PyVal
  | [], _ => Option.none
  | (k', v) :: rest, k => if k' = k then Option.some v else pyGet rest k

theorem pyGet_mem {o : Obj} {k : String} {v : PyVal}
    (h : pyGet o k = Option.some v) : (k, v) ∈ o := by
  induction o with
  | nil => simp [pyGet] at h
  | cons kv rest ih =>
    obtain ⟨k', w⟩ := kv
    by_cases hk : k' = k
    · subst hk
      simp [pyGet] at h
      subst h
      exact List.mem_cons_self _ _
    · simp [pyGet, hk] at h
      exact List.mem_cons_of_mem _ (ih h)

theorem sizeOf_pyGet {o : Obj} {k : String} {v : PyVal}
    (h : pyGet o k = Option.some v) : sizeOf v < sizeOf o := by
  have hm := List.sizeOf_lt_of_mem (pyGet_mem h)
  simp at hm
  omega

mutual

/-- Python's `==` on values (`val1 != val2` in the list branch of
`_custom_json_distance` is its negation).  Numbers (including `bool`)
compare by numeric value across types, strings by contents, lists
elementwise, dicts by length plus per-key comparison of values. -/
def pyEq : PyVal → PyVal → Bool
  | .none, .none => true
  | .str s1, .str s2 => s1 == s2
  | .list xs, .list ys => pyEqList xs ys
  | .dict xs, .dict ys => xs.length == ys.length && pyEqEntries xs ys
  | a, b => a.isNumeric && b.isNumeric && (a.toRat == b.toRat)

/-- Elementwise Python `==` of two lists. -/
def pyEqList : List PyVal → List PyVal → Bool
  | [], [] => true
  | x :: xs, y :: ys => pyEq x y && pyEqList xs ys
  | _, _ => false

/-- Each binding of the first dict is present and `==` in the second. -/
def pyEqEntries : List (String × PyVal) → Obj → Bool
  | [], _ => true
  | (k, v) :: rest, o =>
      (match pyGet o k with
       | Option.some w => pyEq v w
       | Option.none => false) && pyEqEntries rest o

end

/-- The per-field contribution of two same-Python-type numbers in
`_custom_json_distance`: nothing is added when both are exactly zero,
otherwise `abs(val1 - val2) / (abs(val1) + abs(val2) + 1)`. -/
def numContrib (r1 r2 : ℚ) : ℚ :=
  if r1 = 0 ∧ r2 = 0 then 0 else |r1 - r2| / (|r1| + |r2| + 1)

/-- The per-field contribution of two lists in `_custom_json_distance`:
`abs(len(val1) - len(val2)) * 0.1` when the lengths differ, plus `0.2`
for each position `i < min(len(val1), len(val2), 3)` where
`val1[i] != val2[i]`. -/
def listContrib (l1 l2 : List PyVal) : ℚ :=
  (if l1.length = l2.length then 0
   else |(l1.length : ℚ) - (l2.length : ℚ)| * (1 / 10)) +
  ((List.range (min (min l1.length l2.length) 3)).map (fun i =>
      if pyEq (l1.getD i .none) (l2.getD i .none) then 0 else (1 / 5 : ℚ))).sum

theorem sizeOf_pyGetD (o : Obj) (k : String) :
    sizeOf ((pyGet o k).getD PyVal.none) ≤ sizeOf o := by
  cases h : pyGet o k with
  | none =>
    cases o with
    | nil => simp
    | cons kv rest => simp; omega
  | some v =>
    have := sizeOf_pyGet h
    simpa using this.le

mutual

/-- `JSONDatabase._custom_json_distance(obj1, obj2)`.

The loop runs over `set(obj1.keys()) | set(obj2.keys())`, skipping keys
that start with `'_'`, and accumulates, for each remaining key, the
contribution `fieldDist val1 val2` of the loop body, where
`val1 = obj1.get(key)` and `val2 = obj2.get(key)`.

Summing over the deduplicated key list is order-independent, matching
the arbitrary iteration order of the Python set
`set(obj1.keys()) | set(obj2.keys())`. -/
def custom_json_distance (o1 o2 : Obj) : ℚ :=
  (((o1.map Prod.fst ++ o2.map Prod.fst).dedup.filter
      (fun k => !(strStartsWith k "_"))).map (fun k =>
    fieldDist ((pyGet o1 k).getD .none) ((pyGet o2 k).getD .none))).sum
termination_by 2 * sizeOf o1 + 1
decreasing_by
  have := sizeOf_pyGetD o1 k
  omega

/-- The loop body of `_custom_json_distance` for one key: the amount
added to `distance` given `val1` and `val2` (each `None` when missing
*or* bound to a JSON null):
* `1.0` when either value is `None`;
* `0.5` when `type(val1) != type(val2)` (the final catch-all row; note
  `type(True) is bool`, so a `bool` against an `int` is a type
  mismatch);
* otherwise the two types agree and the `isinstance` chain of the
  source applies: numbers first (`isinstance(val1, (int, float))` also
  captures `bool` values, making the later `isinstance(val1, bool)`
  branch of the source unreachable dead code), then strings (`1.0` if
  different), then dicts (recursive distance times `0.5`), then
  lists. -/
def fieldDist : PyVal → PyVal → ℚ
  | .none, _ => 1
  | _, .none => 1
  | .bool b1, .bool b2 => numContrib (PyVal.bool b1).toRat (PyVal.bool b2).toRat
  | .int n1, .int n2 => numContrib ((n1 : ℚ)) ((n2 : ℚ))
  | .float q1, .float q2 => numContrib q1 q2
  | .str s1, .str s2 => if s1 = s2 then 0 else 1
  | .dict d1, .dict d2 => custom_json_distance d1 d2 * (1 / 2)
  | .list l1, .list l2 => listContrib l1 l2
  | _, _ => 1 / 2
termination_by v1 _ => 2 * sizeOf v1
decreasing_by
  simp
  omega

end

/-! ## The S3-backed store and the search index -/

/-- The record store: object id ↦ stored record object (the parsed
content of `<prefix>/data/<id>.json`).  All records written by the
database are JSON objects, so values are `Obj`. -/
abbrev Store : Type := List (String × Obj)

/-- `get_object` on a record key: the stored object, if present. -/
def storeGet : Store → String → Option Obj
  | [], _ => Option.none
  | (i, o) :: rest, id => if i = id then Option.some o else storeGet rest id

/-- `put_object` on a record key: overwrite or create. -/
def storePut : Store → String → Obj → Store
  | [], id, o => [(id, o)]
  | (i, x) :: rest, id, o =>
      if i = id then (id, o) :: rest else (i, x) :: storePut rest id o

/-- `delete_object`: removes the key (succeeds also when absent). -/
def storeDelete (s : Store) (id : String) : Store :=
  s.filter (fun kv => !(kv.1 == id))

/-- `data[k] = v` on a Python dict: overwrite in place, else append. -/
def pySetItem : Obj → String → PyVal → Obj
  | [], k, v => [(k, v)]
  | (k', w) :: rest, k, v =>
      if k' = k then (k, v) :: rest else (k', w) :: pySetItem rest k v

/-- S3's `list_objects_v2` returns keys in ascending lexicographic key
order; the listed keys are `<data_prefix>/<id>.json`, so two ids compare
through their `".json"`-suffixed forms (the shared prefix is
irrelevant). -/
def keyLE (a b : String) : Bool := decide ((a ++ ".json") ≤ (b ++ ".json"))

/-- `JSONDatabase.list_all(limit)`: ids of the first `limit` data keys in
key order (the model assumes at most one listing page, as the code
requests). -/
def list_all (s : Store) (limit : ℕ) : List String :=
  ((s.map Prod.fst).mergeSort keyLE).take limit

/-- Python's `xs[-n:]` for a nonnegative `n`: the whole list when
`n = 0` (because `-0 == 0`), otherwise the last `min n (length xs)`
elements. -/
def pyLastSlice (xs : List α) (n : ℕ) : List α :=
  if n = 0 then xs else xs.drop (xs.length - n)

/-- `JSONDatabase._update_index(obj_id)` with `index_size = n`: no-op if
the id is indexed; otherwise evict the oldest entry (`pop(0)`) when
`len(search_index) >= index_size` — which raises `IndexError` when the
index is empty (only possible for `index_size = 0`) — and append the
id. -/
def update_index (n : ℕ) (idx : List String) (id : String) :
    Except String (List String) :=
  if id ∈ idx then Except.ok idx
  else if n ≤ idx.length then
    match idx with
    | [] => Except.error "IndexError: pop from empty list"
    | _ :: rest => Except.ok (rest ++ [id])
  else Except.ok (idx ++ [id])

/-- `JSONDatabase.insert(data, obj_id)` in the `"custom"` configuration
(no feature extraction): set `data["_id"]`, `put_object` the record,
then `_update_index`.  The store write happens before the index update;
when `_update_index` raises (see `update_index`), the exception
propagates out of `insert` (the model's error result drops the
already-written store). -/
def db_insert (n : ℕ) (s : Store) (idx : List String) (id : String)
    (data : Obj) : Except String (Store × List String) :=
  let data' := pySetItem data "_id" (.str id)
  match update_index n idx id with
  | Except.ok idx' => Except.ok (storePut s id data', idx')
  | Except.error e => Except.error e

/-- `JSONDatabase.delete(obj_id)`: delete the record object and remove
the id from the index if present (`list.remove` drops the first
occurrence). -/
def db_delete (s : Store) (idx : List String) (id : String) :
    Store × List String :=
  (storeDelete s id, if id ∈ idx then idx.erase id else idx)

/-- `JSONDatabase.update(obj_id, data)` in the `"custom"` configuration:
replace the stored record (with `_id` set); the search index is not
touched. -/
def db_update (s : Store) (id : String) (data : Obj) : Store :=
  storePut s id (pySetItem data "_id" (.str id))

/-- `JSONDatabase.rebuild_index()` with `index_size = n` and no
`sample_size` (the `random.sample` branch is external randomness and is
not taken): `search_index = all_ids[-index_size:]` over
`list_all(limit=10000)`. -/
def rebuild_index (n : ℕ) (s : Store) : List String :=
  pyLastSlice (list_all s 10000) n

/-! ## Search -/

/-- One element of the list returned by `find_similar`:
`(obj_id, obj, distance)`. -/
abbrev SearchHit : Type := String × Obj × ℚ

/-- The sort key of `results.sort(key=lambda x: x[2])`: compare by the
distance component only (Python's sort is stable). -/
def distLE (a b : SearchHit) : Bool := decide (a.2.2 ≤ b.2.2)

/-- The unsorted `results` list built by the loop of
`JSONDatabase.find_similar`: for each indexed id in index order, fetch
the object; skip it if missing or falsy (`if obj:` — an empty dict is
falsy); compute the distance (`"custom"` method:
`_custom_json_distance`); keep the hit if within `max_distance`
(`None` means `float('inf')`, i.e. no limit). -/
def candidates (s : Store) (idx : List String) (q : Obj) (md : Option ℚ) :
    List SearchHit :=
  idx.filterMap (fun id =>
    match storeGet s id with
    | Option.some obj =>
        if obj.isEmpty then Option.none
        else
          match md with
          | Option.none => Option.some (id, obj, custom_json_distance q obj)
          | Option.some m =>
              if custom_json_distance q obj ≤ m then
                Option.some (id, obj, custom_json_distance q obj)
              else Option.none
    | Option.none => Option.none)

/-- `results` after `results.sort(key=lambda x: x[2])` (stable). -/
def sortedResults (s : Store) (idx : List String) (q : Obj)
    (md : Option ℚ) : List SearchHit :=
  (candidates s idx q md).mergeSort distLE

/-- Python's `xs[:k]` for an arbitrary integer `k`: the first `k`
elements when `k ≥ 0`, all but the last `|k|` elements when `k < 0`. -/
def pySlice (xs : List α) (k : ℤ) : List α :=
  xs.take (if 0 ≤ k then k.toNat else ((xs.length : ℤ) + k).toNat)

/-- `JSONDatabase.find_similar(query, max_results, max_distance)` in the
`"custom"` configuration: scan the index, sort by distance, return
`results[:max_results]`. -/
def find_similar (s : Store) (idx : List String) (q : Obj)
    (max_results : ℤ) (md : Option ℚ) : List SearchHit :=
  pySlice (sortedResults s idx q md) max_results

/-- The `objects_checked` counter of `last_search_stats` after a
`find_similar` call: the number of indexed ids whose object was fetched
and truthy (counted before the `max_distance` filter). -/
def objects_checked (s : Store) (idx : List String) : ℕ :=
  (idx.filter (fun id =>
    match storeGet s id with
    | Option.some obj => !obj.isEmpty
    | Option.none => false)).length

/-! ## Persistence of the index -/

/-- The configuration fields serialized by `_save_index`. -/
structure DBConfig : Type where
  distance_method : String
  feature_dim : ℤ
  index_size : ℤ

/-- The JSON document written by `JSONDatabase._save_index()`. -/
def save_index_doc (idx : List String) (cfg : DBConfig) : PyVal :=
  .dict [("index", .list (idx.map .str)),
         ("config", .dict [("distance_method", .str cfg.distance_method),
                           ("feature_dim", .int cfg.feature_dim),
                           ("index_size", .int cfg.index_size)])]

/-- The possible outcomes of the `get_object` + `json.loads` stage of
`JSONDatabase._load_index()`:
* `noSuchKey`: the GET failed with the `NoSuchKey` client error;
* `clientError`: the GET failed with any other `ClientError`;
* `malformed`: the GET succeeded but the body is a byte sequence that
  `json.loads` rejects (raising `json.JSONDecodeError`);
* `doc j`: the body parsed to the JSON value `j`. -/
inductive IndexFetch : Type where
  | noSuchKey : IndexFetch
  | clientError : IndexFetch
  | malformed : IndexFetch
  | doc (j : PyVal) : IndexFetch

/-- `JSONDatabase._load_index()`.  Only `ClientError` is caught (both
branches return `[]`); a `json.JSONDecodeError` from `json.loads`
propagates, as does the `AttributeError` from calling `.get` on a
parsed document that is not a JSON object.  On a parsed object the
result is `index_data.get('index', [])`, returned without any shape
validation. -/
def load_index : IndexFetch → Except String PyVal
  | .noSuchKey => Except.ok (.list [])
  | .clientError => Except.ok (.list [])
  | .malformed => Except.error "json.decoder.JSONDecodeError"
  | .doc j =>
      match j with
      | .dict kvs => Except.ok ((pyGet kvs "index").getD (.list []))
      | _ => Except.error "AttributeError"

/-- Reading a loaded index value back as the typed id list the rest of
the model uses (`search_index : List String`). -/
def strListOfVals : List PyVal → Option (List String)
  | [] => Option.some []
  | .str s :: rest => (strListOfVals rest).map (fun l => s :: l)
  | _ => Option.none

def strListOfPyVal : PyVal → Option (List String)
  | .list xs => strListOfVals xs
  | _ => Option.none

/-- The index list obtained by saving `idx` and loading it back. -/
def reloaded_index (idx : List String) (cfg : DBConfig) : List String :=
  match load_index (.doc (save_index_doc idx cfg)) with
  | Except.ok v => (strListOfPyVal v).getD []
  | Except.error _ => []

/-- Inserting a list of records in order, starting from an empty store
and an empty index. -/
def insertAll (n : ℕ) (R : List (String × Obj)) :
    Except String (Store × List String) :=
  R.foldlM (fun st r => db_insert n st.1 st.2 r.1 r.2) (([], []) : Store × List String)

/-! ## Well-formedness predicates for reflexivity of the distance

`distance(a, a) = 0` fails in the code as soon as a field holds a JSON
null (the missing-field penalty fires), and Python `==` on a value
always holds reflexively, which in the association-list model
corresponds to dicts with duplicate-free key lists.  The following
predicates capture exactly the values for which the code's reflexivity
statements hold. -/

mutual

/-- `pyEq v v` holds: lists elementwise, dicts need duplicate-free keys
(automatic for real Python dicts) and self-equal values. -/
def selfEqOK : PyVal → Bool
  | .list xs => selfEqOKList xs
  | .dict kvs => decide ((kvs.map Prod.fst).Nodup) && selfEqOKEntries kvs
  | _ => true

def selfEqOKList : List PyVal → Bool
  | [] => true
  | x :: xs => selfEqOK x && selfEqOKList xs

def selfEqOKEntries : List (String × PyVal) → Bool
  | [] => true
  | (_, v) :: rest => selfEqOK v && selfEqOKEntries rest

end

mutual

/-- `custom_json_distance o o = 0` holds: no non-underscore field of `o`
is a JSON null, recursively through dict-valued fields, and list-valued
fields are self-equal under Python `==`. -/
def refl0OK : Obj → Bool
  | [] => true
  | (k, v) :: rest => (strStartsWith k "_" || fieldRefl0OK v) && refl0OK rest

def fieldRefl0OK : PyVal → Bool
  | .none => false
  | .dict d => refl0OK d
  | .list xs => selfEqOKList xs
  | _ => true

end

theorem selfEqOKList_mem {xs : List PyVal} {x : PyVal}
    (h : selfEqOKList xs = true) (hx : x ∈ xs) : selfEqOK x = true := by
  induction xs with
  | nil => cases hx
  | cons y ys ih =>
    simp [selfEqOKList] at h
    rcases List.mem_cons.mp hx with rfl | hx'
    · exact h.1
    · exact ih h.2 hx'

theorem selfEqOKEntries_mem {kvs : List (String × PyVal)} {k : String}
    {v : PyVal} (h : selfEqOKEntries kvs = true) (hm : (k, v) ∈ kvs) :
    selfEqOK v = true := by
  induction kvs with
  | nil => cases hm
  | cons p rest ih =>
    obtain ⟨k', w⟩ := p
    simp [selfEqOKEntries] at h
    rcases List.mem_cons.mp hm with he | hm'
    · rw [Prod.mk.injEq] at he
      obtain ⟨-, rfl⟩ := he
      exact h.1
    · exact ih h.2 hm'

theorem refl0OK_mem {o : Obj} {k : String} {v : PyVal}
    (h : refl0OK o = true) (hm : (k, v) ∈ o)
    (hk : strStartsWith k "_" = false) : fieldRefl0OK v = true := by
  induction o with
  | nil => cases hm
  | cons kv rest ih =>
    obtain ⟨k', w⟩ := kv
    simp [refl0OK] at h
    rcases List.mem_cons.mp hm with he | hm'
    · rw [Prod.mk.injEq] at he
      obtain ⟨rfl, rfl⟩ := he
      rcases h.1 with h1 | h1
      · rw [hk] at h1; cases h1
      · exact h1
    · exact ih h.2 hm'

theorem pyGet_of_mem_nodup {o : Obj} {k : String} {v : PyVal}
    (hm : (k, v) ∈ o) (hnd : (o.map Prod.fst).Nodup) :
    pyGet o k = Option.some v := by
  induction o with
  | nil => cases hm
  | cons kv rest ih =>
    obtain ⟨k', w⟩ := kv
    simp at hnd
    rcases List.mem_cons.mp hm with he | hm'
    · rw [Prod.mk.injEq] at he
      obtain ⟨rfl, rfl⟩ := he
      simp [pyGet]
    · have hne : k' ≠ k := by
        intro he'
        exact hnd.1 v (he' ▸ hm')
      simp [pyGet, hne]
      exact ih hm' hnd.2

theorem pyGet_isSome_of_mem_keys {o : Obj} {k : String}
    (h : k ∈ o.map Prod.fst) : ∃ v, pyGet o k = Option.some v := by
  induction o with
  | nil => simp at h
  | cons kv rest ih =>
    obtain ⟨k', w⟩ := kv
    by_cases he : k' = k
    · exact ⟨w, by simp [pyGet, he]⟩
    · simp [pyGet, he]
      rcases (by simpa using h : k = k' ∨ k ∈ rest.map Prod.fst) with h' | h'
      · exact absurd h'.symm he
      · simpa using ih h'

/-- Python `==` is reflexive on well-formed values. -/
theorem pyEq_reflAux : ∀ N : ℕ,
    (∀ v : PyVal, sizeOf v ≤ N → selfEqOK v = true → pyEq v v = true) ∧
    (∀ xs : List PyVal, sizeOf xs ≤ N → selfEqOKList xs = true →
      pyEqList xs xs = true) ∧
    (∀ (kvs : List (String × PyVal)) (o : Obj), sizeOf kvs ≤ N →
      (∀ p ∈ kvs, p ∈ o ∧ selfEqOK p.2 = true) →
      (o.map Prod.fst).Nodup → pyEqEntries kvs o = true) := by
  intro N
  induction N with
  | zero =>
    refine ⟨fun v hv => ?_, fun xs hxs => ?_, fun kvs o hkvs => ?_⟩
    · cases v <;> simp at hv
    · cases xs <;> simp at hxs
    · cases kvs with
      | nil => intro _ _; simp [pyEqEntries]
      | cons p rest => simp at hkvs
  | succ N ih =>
    obtain ⟨ihv, ihl, ihe⟩ := ih
    refine ⟨fun v hv hok => ?_, fun xs hxs hok => ?_,
      fun kvs o hkvs hsub hnd => ?_⟩
    · cases v with
      | list xs =>
        simp at hv
        simp [selfEqOK] at hok
        simpa [pyEq] using ihl xs (by omega) hok
      | dict kvs =>
        simp at hv
        simp [selfEqOK] at hok
        have he := ihe kvs kvs (by omega)
          (fun p hp => ⟨hp, by
            obtain ⟨pk, pv⟩ := p
            exact selfEqOKEntries_mem hok.2 hp⟩) hok.1
        simp [pyEq, he]
      | none => simp [pyEq]
      | bool b => simp [pyEq, PyVal.isNumeric]
      | int n => simp [pyEq, PyVal.isNumeric]
      | float q => simp [pyEq, PyVal.isNumeric]
      | str s => simp [pyEq]
    · cases xs with
      | nil => simp [pyEqList]
      | cons x rest =>
        simp at hxs
        simp [selfEqOKList] at hok
        simp [pyEqList, ihv x (by omega) hok.1, ihl rest (by omega) hok.2]
    · cases kvs with
      | nil => simp [pyEqEntries]
      | cons p rest =>
        obtain ⟨k, v⟩ := p
        have hp := hsub (k, v) (List.mem_cons_self _ _)
        have hrest : ∀ p ∈ rest, p ∈ o ∧ selfEqOK p.2 = true :=
          fun p hpr => hsub p (List.mem_cons_of_mem _ hpr)
        simp at hkvs
        simp [pyEqEntries, pyGet_of_mem_nodup hp.1 hnd,
          ihv v (by omega) hp.2,
          ihe rest o (by omega) hrest hnd]

theorem pyEq_refl {v : PyVal} (h : selfEqOK v = true) : pyEq v v = true :=
  (pyEq_reflAux (sizeOf v)).1 v le_rfl h

/-! ## General properties of the distance function -/

theorem numContrib_nonneg (r1 r2 : ℚ) : 0 ≤ numContrib r1 r2 := by
  unfold numContrib
  split
  · exact le_refl 0
  · have h1 : (0 : ℚ) ≤ |r1 - r2| := abs_nonneg _
    have h2 : (0 : ℚ) < |r1| + |r2| + 1 := by positivity
    exact div_nonneg h1 h2.le

theorem numContrib_self (r : ℚ) : numContrib r r = 0 := by
  unfold numContrib
  split
  · rfl
  · simp

theorem listContrib_nonneg (l1 l2 : List PyVal) : 0 ≤ listContrib l1 l2 := by
  unfold listContrib
  refine add_nonneg ?_ ?_
  · split
    · exact le_refl 0
    · positivity
  · refine List.sum_nonneg ?_
    intro x hx
    obtain ⟨i, -, rfl⟩ := List.mem_map.mp hx
    split <;> norm_num

theorem listContrib_self {xs : List PyVal} (h : selfEqOKList xs = true) :
    listContrib xs xs = 0 := by
  unfold listContrib
  rw [if_pos rfl, zero_add]
  refine List.sum_eq_zero ?_
  intro x hx
  obtain ⟨i, hi, rfl⟩ := List.mem_map.mp hx
  have hlen : i < xs.length := by
    have := List.mem_range.mp hi
    omega
  have hget : xs.getD i PyVal.none = xs[i] := by
    simp [List.getD_eq_getElem?_getD, List.getElem?_eq_getElem hlen]
  rw [hget, if_pos (pyEq_refl (selfEqOKList_mem h (List.getElem_mem hlen)))]

/-- Nonnegativity of the distance and of each per-field contribution. -/
theorem dist_nonnegAux : ∀ N : ℕ,
    (∀ o1 o2 : Obj, sizeOf o1 ≤ N → 0 ≤ custom_json_distance o1 o2) ∧
    (∀ v1 v2 : PyVal, sizeOf v1 ≤ N → 0 ≤ fieldDist v1 v2) := by
  intro N
  induction N with
  | zero =>
    refine ⟨fun o1 o2 h => ?_, fun v1 v2 h => ?_⟩
    · cases o1 <;> simp at h
    · cases v1 <;> simp at h
  | succ N ih =>
    obtain ⟨ihD, -⟩ := ih
    have hf : ∀ v1 v2 : PyVal, sizeOf v1 ≤ N + 1 → 0 ≤ fieldDist v1 v2 := by
      intro v1 v2 hv
      cases v1 with
      | dict d1 =>
        cases v2 with
        | none => simp [fieldDist]
        | dict d2 =>
          rw [fieldDist]
          refine mul_nonneg (ihD d1 d2 ?_) (by norm_num)
          simp at hv
          omega
        | bool b => simp [fieldDist]
        | int n => simp [fieldDist]
        | float q => simp [fieldDist]
        | str s => simp [fieldDist]
        | list l => simp [fieldDist]
      | none => cases v2 <;> simp [fieldDist]
      | bool b => cases v2 <;> simp [fieldDist, numContrib_nonneg]
      | int n => cases v2 <;> simp [fieldDist, numContrib_nonneg]
      | float q => cases v2 <;> simp [fieldDist, numContrib_nonneg]
      | str s =>
        cases v2 <;> simp [fieldDist]
        split <;> norm_num
      | list l =>
        cases v2 <;> simp [fieldDist, listContrib_nonneg]
    refine ⟨fun o1 o2 ho => ?_, hf⟩
    rw [custom_json_distance]
    refine List.sum_nonneg ?_
    intro x hx
    obtain ⟨k, -, rfl⟩ := List.mem_map.mp hx
    exact hf _ _ (le_trans (sizeOf_pyGetD o1 k) ho)

/-- The distance is nonnegative. -/
theorem custom_json_distance_nonneg (o1 o2 : Obj) :
    0 ≤ custom_json_distance o1 o2 :=
  (dist_nonnegAux (sizeOf o1)).1 o1 o2 le_rfl

/-- Reflexivity at zero, on objects whose non-underscore fields are
null-free and self-equal. -/
theorem dist_reflAux : ∀ N : ℕ,
    (∀ o : Obj, sizeOf o ≤ N → refl0OK o = true →
      custom_json_distance o o = 0) ∧
    (∀ v : PyVal, sizeOf v ≤ N → fieldRefl0OK v = true →
      fieldDist v v = 0) := by
  intro N
  induction N with
  | zero =>
    refine ⟨fun o h => ?_, fun v h => ?_⟩
    · cases o <;> simp at h
    · cases v <;> simp at h
  | succ N ih =>
    obtain ⟨ihD, -⟩ := ih
    have hf : ∀ v : PyVal, sizeOf v ≤ N + 1 → fieldRefl0OK v = true →
        fieldDist v v = 0 := by
      intro v hv hok
      cases v with
      | none => simp [fieldRefl0OK] at hok
      | bool b => simp [fieldDist, numContrib_self]
      | int n => simp [fieldDist, numContrib_self]
      | float q => simp [fieldDist, numContrib_self]
      | str s => simp [fieldDist]
      | dict d =>
        rw [fieldDist]
        rw [ihD d (by simp at hv; omega) (by simpa [fieldRefl0OK] using hok)]
        norm_num
      | list l =>
        rw [fieldDist, listContrib_self (by simpa [fieldRefl0OK] using hok)]
    refine ⟨fun o ho hok => ?_, hf⟩
    rw [custom_json_distance]
    refine List.sum_eq_zero ?_
    intro x hx
    obtain ⟨k, hk, rfl⟩ := List.mem_map.mp hx
    obtain ⟨hk1, hk2⟩ := List.mem_filter.mp hk
    have hkeys : k ∈ o.map Prod.fst := by
      have := List.mem_dedup.mp hk1
      exact (List.mem_append.mp this).elim id id
    obtain ⟨v, hv⟩ := pyGet_isSome_of_mem_keys hkeys
    have hks : strStartsWith k "_" = false := by
      simpa using hk2
    have hvok : fieldRefl0OK v = true := refl0OK_mem hok (pyGet_mem hv) hks
    rw [hv]
    exact hf v (le_trans (le_of_lt (by simpa using sizeOf_pyGet hv)) ho) hvok

/-! ## Helper lemmas for concrete evaluations -/

/-- Evaluating `mergeSort` on a two-element list. -/
theorem mergeSort_pair {α : Type} (le : α → α → Bool) (a b : α) :
    List.mergeSort [a, b] le = if le a b then [a, b] else [b, a] := by
  rw [List.mergeSort]
  simp only [List.splitInTwo_fst, List.splitInTwo_snd]
  norm_num [List.merge, List.mergeSort]

/-- The distance between two single-field objects on a common
non-underscore key is the per-field contribution of the two values. -/
theorem dist_singleton {k : String} (hk : strStartsWith k "_" = false)
    (v1 v2 : PyVal) :
    custom_json_distance [(k, v1)] [(k, v2)] = fieldDist v1 v2 := by
  rw [custom_json_distance]
  simp [pyGet, hk, List.dedup_cons_of_mem, List.dedup_cons_of_not_mem,
    List.dedup_nil]

/-! ## Claim C1 -/

/-- Claim C1, as stated, is false on the code: the distance is *not*
bounded by 1 (two single-field objects with disjoint keys are at
distance 2, one missing-field penalty per side), and `distance(a,a)` is
*not* 0 for every object (a JSON-null field is read back by
`obj.get(key)` as `None` and incurs the missing-field penalty, so an
object with a null-valued field has self-distance 1). -/
theorem claim_C1_counterexample :
    custom_json_distance [("a", .int 1)] [("b", .int 1)] = 2 ∧
    ¬ custom_json_distance [("a", .int 1)] [("b", .int 1)] ≤ 1 ∧
    custom_json_distance [("k", .none)] [("k", .none)] = 1 ∧
    custom_json_distance [("k", .none)] [("k", .none)] ≠ 0 := by
  have ha : strStartsWith "a" "_" = false := by decide
  have hb : strStartsWith "b" "_" = false := by decide
  have hk : strStartsWith "k" "_" = false := by decide
  have h1 : custom_json_distance [("a", .int 1)] [("b", .int 1)] = 2 := by
    simp [custom_json_distance, fieldDist, pyGet, ha, hb,
      List.dedup_cons_of_not_mem, List.dedup_cons_of_mem, List.dedup_nil]
    norm_num
  have h2 : custom_json_distance [("k", .none)] [("k", .none)] = 1 := by
    simp [custom_json_distance, fieldDist, pyGet, hk,
      List.dedup_cons_of_not_mem, List.dedup_cons_of_mem, List.dedup_nil]
  refine ⟨h1, by rw [h1]; norm_num, h2, by rw [h2]; norm_num⟩

/-- Claim C1 (amended): the custom JSON distance is nonnegative (but
not bounded by 1), and `distance(a, a) = 0` holds for objects `a` none
of whose non-underscore fields is a JSON null (recursively through
dict-valued fields) and whose list-valued fields are self-equal under
Python `==` (`refl0OK`). -/
theorem claim_C1 :
    (∀ o1 o2 : Obj, 0 ≤ custom_json_distance o1 o2) ∧
    (∀ o : Obj, refl0OK o = true → custom_json_distance o o = 0) :=
  ⟨custom_json_distance_nonneg,
   fun o h => (dist_reflAux (sizeOf o)).1 o le_rfl h⟩

theorem claim_C1_witness :
    (0 ≤ custom_json_distance [("x", .int 1)] [("y", .str "s")]) ∧
    refl0OK [("x", .int 1), ("t", .str "u")] = true ∧
    custom_json_distance [("x", .int 1), ("t", .str "u")]
      [("x", .int 1), ("t", .str "u")] = 0 :=
  ⟨claim_C1.1 _ _, by decide, claim_C1.2 _ (by decide)⟩

/-! ## Claim C8 -/

/-- Claim C8, as stated, is false on the code: two differing booleans on
a common field contribute 0.5, not 1.0.  (Python's `bool` is a subclass
of `int`, so differing booleans take the numeric branch:
`|1-0| / (1+0+1) = 0.5`; the explicit `isinstance(val1, bool)` branch of
the source — which would also add only 0.5 — is unreachable.) -/
theorem claim_C8_counterexample :
    custom_json_distance [("flag", .bool true)] [("flag", .bool false)]
      = 1 / 2 ∧ ((1 : ℚ) / 2 ≠ 1) := by
  have hf : strStartsWith "flag" "_" = false := by decide
  constructor
  · rw [dist_singleton hf]
    simp [fieldDist, numContrib, PyVal.toRat]
    norm_num
  · norm_num

/-- Claim C8 (amended): on a common non-underscore field holding two
booleans, the per-field contribution is 0 when they are equal and 0.5
when they differ. -/
theorem claim_C8 :
    ∀ (k : String) (b1 b2 : Bool), strStartsWith k "_" = false →
      custom_json_distance [(k, .bool b1)] [(k, .bool b2)]
        = if b1 = b2 then 0 else 1 / 2 := by
  intro k b1 b2 hk
  rw [dist_singleton hk]
  cases b1 <;> cases b2 <;>
    simp [fieldDist, numContrib, PyVal.toRat] <;> norm_num

theorem claim_C8_witness :
    strStartsWith "flag" "_" = false ∧
    custom_json_distance [("flag", .bool true)] [("flag", .bool true)]
      = (if true = true then (0 : ℚ) else 1 / 2) :=
  ⟨by decide, claim_C8 "flag" true true (by decide)⟩

/-! ## Claim C3 -/

/-- The three records of the concrete scenario of claim C3, as stored
by `insert` (which adds the `_id` field), and the resulting state. -/
def recA : Obj := [("x", .int 1), ("_id", .str "a")]

def recB : Obj := [("x", .int 2), ("_id", .str "b")]

def recC : Obj := [("x", .int 10), ("_id", .str "c")]

def store3 : Store := [("a", recA), ("b", recB), ("c", recC)]

def query3 : Obj := [("x", .int 1)]

theorem dist_query3_recA : custom_json_distance query3 recA = 0 := by
  have hx : strStartsWith "x" "_" = false := by decide
  have hi : strStartsWith "_id" "_" = true := by decide
  simp [query3, recA, custom_json_distance, fieldDist, pyGet, hx, hi,
    numContrib, List.dedup_cons_of_not_mem, List.dedup_cons_of_mem,
    List.dedup_nil]

theorem dist_query3_recB : custom_json_distance query3 recB = 1 / 4 := by
  have hx : strStartsWith "x" "_" = false := by decide
  have hi : strStartsWith "_id" "_" = true := by decide
  simp [query3, recB, custom_json_distance, fieldDist, pyGet, hx, hi,
    numContrib, List.dedup_cons_of_not_mem, List.dedup_cons_of_mem,
    List.dedup_nil]
  norm_num

theorem dist_query3_recC : custom_json_distance query3 recC = 3 / 4 := by
  have hx : strStartsWith "x" "_" = false := by decide
  have hi : strStartsWith "_id" "_" = true := by decide
  simp [query3, recC, custom_json_distance, fieldDist, pyGet, hx, hi,
    numContrib, List.dedup_cons_of_not_mem, List.dedup_cons_of_mem,
    List.dedup_nil]
  norm_num

theorem insertAll_scenario3 :
    insertAll 20 [("a", [("x", .int 1)]), ("b", [("x", .int 2)]),
      ("c", [("x", .int 10)])] = Except.ok (store3, ["a", "b", "c"]) := by
  simp [insertAll, db_insert, update_index, pySetItem, storePut, store3,
    recA, recB, recC, List.foldlM, Except.bind, bind, pure, Except.pure]

theorem find_similar_scenario3 :
    (find_similar store3 ["a", "b", "c"] query3 2 Option.none).map
      (fun r => (r.1, r.2.2)) = [("a", (0 : ℚ)), ("b", 1 / 4)] := by
  have eA : (recA : Obj).isEmpty = false := by simp [recA]
  have eB : (recB : Obj).isEmpty = false := by simp [recB]
  have eC : (recC : Obj).isEmpty = false := by simp [recC]
  have hc : candidates store3 ["a", "b", "c"] query3 Option.none =
      [("a", recA, 0), ("b", recB, 1 / 4), ("c", recC, 3 / 4)] := by
    simp [candidates, storeGet, store3, eA, eB, eC, dist_query3_recA,
      dist_query3_recB, dist_query3_recC]
  have hs : sortedResults store3 ["a", "b", "c"] query3 Option.none =
      [("a", recA, 0), ("b", recB, 1 / 4), ("c", recC, 3 / 4)] := by
    rw [sortedResults, hc]
    refine List.mergeSort_of_sorted ?_
    simp [List.pairwise_cons, distLE]
    norm_num
  rw [find_similar, hs]
  simp [pySlice]

/-- Claim C3, as stated, is false on the code: the per-field numeric
contribution divides by `abs(a) + abs(b) + 1`, not `abs(a) + abs(b)`, so
in the concrete scenario record `"b"` is returned at distance
`1/4 = 0.25`, not `1/3 = 0.333…`. -/
theorem claim_C3_counterexample :
    custom_json_distance [("x", .int 1)] [("x", .int 2)] = 1 / 4 ∧
    ((1 : ℚ) / 4 ≠ |(1 : ℚ) - 2| / (|(1 : ℚ)| + |(2 : ℚ)|)) ∧
    (find_similar store3 ["a", "b", "c"] query3 2 Option.none).map
      (fun r => (r.1, r.2.2)) ≠ [("a", (0 : ℚ)), ("b", 1 / 3)] := by
  have hx : strStartsWith "x" "_" = false := by decide
  refine ⟨?_, by norm_num, ?_⟩
  · rw [dist_singleton hx]
    simp [fieldDist, numContrib]
    norm_num
  · rw [find_similar_scenario3]
    simp

/-- Claim C3 (amended): on a common non-underscore field holding two
numbers of the same Python type — both ints or both floats — the
contribution is 0 when both are exactly zero and
`|a-b| / (|a| + |b| + 1)` otherwise (hence 0 whenever `a = b`); a field
holding an int on one side and a float on the other takes the
`type(val1) != type(val2)` branch and contributes 0.5 regardless of the
values, even when they are numerically equal (`1` vs `1.0`); in the
concrete scenario (records `x = 1, 2, 10` inserted as ids
`a, b, c`, query `{"x": 1}`, `k = 2`) the result is
`[("a", 0), ("b", 1/4)]` in that order. -/
theorem claim_C3 :
    (∀ (k : String) (a b : ℤ), strStartsWith k "_" = false →
      custom_json_distance [(k, .int a)] [(k, .int b)]
        = if a = 0 ∧ b = 0 then 0
          else |(a : ℚ) - (b : ℚ)| / (|(a : ℚ)| + |(b : ℚ)| + 1)) ∧
    (∀ (k : String) (a b : ℚ), strStartsWith k "_" = false →
      custom_json_distance [(k, .float a)] [(k, .float b)]
        = if a = 0 ∧ b = 0 then 0 else |a - b| / (|a| + |b| + 1)) ∧
    (∀ (k : String) (a : ℤ), strStartsWith k "_" = false →
      custom_json_distance [(k, .int a)] [(k, .int a)] = 0) ∧
    (∀ (k : String) (a : ℚ), strStartsWith k "_" = false →
      custom_json_distance [(k, .float a)] [(k, .float a)] = 0) ∧
    (∀ (k : String) (a : ℤ) (b : ℚ), strStartsWith k "_" = false →
      custom_json_distance [(k, .int a)] [(k, .float b)] = 1 / 2 ∧
      custom_json_distance [(k, .float b)] [(k, .int a)] = 1 / 2) ∧
    insertAll 20 [("a", [("x", .int 1)]), ("b", [("x", .int 2)]),
      ("c", [("x", .int 10)])] = Except.ok (store3, ["a", "b", "c"]) ∧
    (find_similar store3 ["a", "b", "c"] query3 2 Option.none).map
      (fun r => (r.1, r.2.2)) = [("a", (0 : ℚ)), ("b", 1 / 4)] := by
  refine ⟨?_, ?_, ?_, ?_, ?_, insertAll_scenario3, find_similar_scenario3⟩
  · intro k a b hk
    rw [dist_singleton hk]
    simp [fieldDist, numContrib]
  · intro k a b hk
    rw [dist_singleton hk]
    simp [fieldDist, numContrib, PyVal.toRat]
  · intro k a hk
    rw [dist_singleton hk]
    simp [fieldDist, numContrib_self]
  · intro k a hk
    rw [dist_singleton hk]
    simp [fieldDist, numContrib_self]
  · intro k a b hk
    constructor <;> rw [dist_singleton hk] <;> simp [fieldDist]

theorem claim_C3_witness :
    strStartsWith "x" "_" = false ∧
    custom_json_distance [("x", .int 1)] [("x", .int 2)]
      = (if (1 : ℤ) = 0 ∧ (2 : ℤ) = 0 then 0
         else |(1 : ℚ) - (2 : ℚ)| / (|(1 : ℚ)| + |(2 : ℚ)| + 1)) ∧
    custom_json_distance [("x", .float (3 / 2))] [("x", .float (1 / 2))]
      = (if (3 / 2 : ℚ) = 0 ∧ (1 / 2 : ℚ) = 0 then 0
         else |(3 / 2 : ℚ) - 1 / 2| / (|(3 / 2 : ℚ)| + |(1 / 2 : ℚ)| + 1)) ∧
    custom_json_distance [("x", .int 7)] [("x", .int 7)] = 0 ∧
    custom_json_distance [("x", .float 7)] [("x", .float 7)] = 0 ∧
    custom_json_distance [("x", .int 1)] [("x", .float 1)] = 1 / 2 :=
  ⟨by decide, claim_C3.1 "x" 1 2 (by decide),
   claim_C3.2.1 "x" (3 / 2) (1 / 2) (by decide),
   claim_C3.2.2.1 "x" 7 (by decide),
   claim_C3.2.2.2.1 "x" 7 (by decide),
   (claim_C3.2.2.2.2.1 "x" 1 1 (by decide)).1⟩

/-! ## Claim C5 -/

theorem distLE_trans : ∀ a b c : SearchHit,
    distLE a b → distLE b c → distLE a c := by
  intro a b c hab hbc
  simp [distLE] at *
  exact le_trans hab hbc

theorem distLE_total : ∀ a b : SearchHit, distLE a b || distLE b a := by
  intro a b
  simp [distLE]
  exact le_total _ _

/-- Claim C5: `find_similar` with `max_results = k ≥ 1` returns at most
`k` hits, sorted in ascending order of distance, and searching an empty
index returns `[]` for every query, `k`, and distance threshold. -/
theorem claim_C5 :
    (∀ (s : Store) (idx : List String) (q : Obj) (k : ℤ) (md : Option ℚ),
      1 ≤ k →
      ((find_similar s idx q k md).length : ℤ) ≤ k ∧
      (find_similar s idx q k md).Pairwise (fun a b => a.2.2 ≤ b.2.2)) ∧
    (∀ (q : Obj) (k : ℤ) (md : Option ℚ) (s : Store),
      find_similar s [] q k md = []) := by
  constructor
  · intro s idx q k md hk
    constructor
    · rw [find_similar, pySlice, if_pos (by omega)]
      have := List.length_take_le k.toNat (sortedResults s idx q md)
      have hkk : (k.toNat : ℤ) = k := Int.toNat_of_nonneg (by omega)
      omega
    · have hsorted : (sortedResults s idx q md).Pairwise
          (fun a b : SearchHit => a.2.2 ≤ b.2.2) := by
        have := List.sorted_mergeSort distLE_trans distLE_total
          (candidates s idx q md)
        refine this.imp ?_
        intro a b h
        simpa [distLE] using h
      exact List.Pairwise.sublist (List.take_sublist _ _) hsorted
  · intro q k md s
    simp [find_similar, sortedResults, candidates, pySlice]

theorem claim_C5_witness :
    (1 : ℤ) ≤ 1 ∧
    ((find_similar [] ["a"] [] 1 Option.none).length : ℤ) ≤ 1 ∧
    (find_similar [] ["a"] [] 1 Option.none).Pairwise
      (fun a b => a.2.2 ≤ b.2.2) :=
  ⟨by norm_num, (claim_C5.1 [] ["a"] [] 1 Option.none (by norm_num)).1,
   (claim_C5.1 [] ["a"] [] 1 Option.none (by norm_num)).2⟩

/-! ## Claim C6 -/

/-- Claim C6, as stated, is false on the code: `find_similar` performs
no validation of `max_results`; with `k = 0` it does the full scan
(here all three stored objects are fetched and checked) and returns the
empty slice `results[:0]`, an ordinary empty result sequence rather
than an invalid-query error (the embedded `find_similar` is total, with
no error outcome at all). -/
theorem claim_C6_counterexample :
    find_similar store3 ["a", "b", "c"] query3 0 Option.none = [] ∧
    objects_checked store3 ["a", "b", "c"] = 3 := by
  constructor
  · simp [find_similar, pySlice]
  · simp [objects_checked, storeGet, store3, recA, recB, recC]

/-- Claim C6 (amended): `k < 1` is not rejected and causes no error:
the scan and sort still happen and Python's slice `results[:k]` is
returned — always `[]` for `k = 0`, and, for every negative `k`, all
results except the last `|k|`. -/
theorem claim_C6 :
    (∀ (s : Store) (idx : List String) (q : Obj) (md : Option ℚ),
      find_similar s idx q 0 md = []) ∧
    (∀ (s : Store) (idx : List String) (q : Obj) (md : Option ℚ)
      (k : ℤ), k < 0 →
      find_similar s idx q k md
        = (sortedResults s idx q md).take
            ((sortedResults s idx q md).length - (-k).toNat)) := by
  constructor
  · intro s idx q md
    simp [find_similar, pySlice]
  · intro s idx q md k hk
    rw [find_similar, pySlice, if_neg (by omega)]
    congr 1
    omega

theorem claim_C6_witness :
    find_similar store3 ["a", "b", "c"] query3 0 Option.none = [] ∧
    ((-2 : ℤ) < 0) ∧
    find_similar store3 ["a", "b", "c"] query3 (-2) Option.none
      = (sortedResults store3 ["a", "b", "c"] query3 Option.none).take
          ((sortedResults store3 ["a", "b", "c"] query3
              Option.none).length - ((-(-2 : ℤ)).toNat)) :=
  ⟨claim_C6.1 store3 ["a", "b", "c"] query3 Option.none, by norm_num,
   claim_C6.2 store3 ["a", "b", "c"] query3 Option.none (-2) (by norm_num)⟩

/-! ## Claim C4 -/

/-- The state before the counterexample insertion: one record `"b"`,
indexed. -/
def storeC4 : Store := [("b", [("y", .int 5), ("_id", .str "b")])]

def storeC4' : Store :=
  [("b", [("y", .int 5), ("_id", .str "b")]),
   ("a", [("y", .int 6), ("_id", .str "a")])]

/-- Claim C4, as stated, is false on the code: `insert` never calls
`rebuild_index`; it appends the new id to the in-memory index
(`_update_index`), so after inserting `"a"` into a database whose index
is `["b"]` the index is `["b", "a"]`, while a store write followed by
`rebuild_index()` would give `["a", "b"]` (ids re-listed in S3 key
order). -/
theorem claim_C4_counterexample :
    db_insert 20 storeC4 ["b"] "a" [("y", .int 6)]
      = Except.ok (storeC4', ["b", "a"]) ∧
    rebuild_index 20 storeC4' = ["a", "b"] ∧
    (["b", "a"] : List String) ≠ ["a", "b"] := by
  refine ⟨?_, ?_, by simp⟩
  · simp [db_insert, update_index, pySetItem, storePut, storeC4, storeC4']
  · have hk : keyLE "b" "a" = false := by
      have h : ¬ (("b" ++ ".json" : String) ≤ ("a" ++ ".json")) := by
        simp
        decide
      exact decide_eq_false h
    rw [rebuild_index, list_all]
    simp only [storeC4', List.map_cons, List.map_nil]
    rw [mergeSort_pair, if_neg (by simp [hk])]
    simp [pyLastSlice]

/-- Claim C4 (amended): `insert` persists the record (with `_id` set)
and then updates the index *incrementally* through `_update_index` —
appending the id when absent, evicting the oldest entry when the index
is full — and performs no `rebuild_index()`; its index post-state is
the one characterized here, which in general differs from a store
write followed by a full rebuild. -/
theorem claim_C4 :
    ∀ (n : ℕ) (s : Store) (idx : List String) (id : String) (data : Obj),
      (id ∈ idx →
        db_insert n s idx id data
          = Except.ok (storePut s id (pySetItem data "_id" (.str id)), idx)) ∧
      (id ∉ idx → idx.length < n →
        db_insert n s idx id data
          = Except.ok (storePut s id (pySetItem data "_id" (.str id)),
              idx ++ [id])) ∧
      (id ∉ idx → n ≤ idx.length → idx ≠ [] →
        db_insert n s idx id data
          = Except.ok (storePut s id (pySetItem data "_id" (.str id)),
              idx.tail ++ [id])) := by
  intro n s idx id data
  refine ⟨fun hmem => ?_, fun hmem hlen => ?_, fun hmem hlen hne => ?_⟩
  · simp [db_insert, update_index, hmem]
  · simp [db_insert, update_index, hmem, Nat.not_le.mpr hlen]
  · cases idx with
    | nil => cases hne rfl
    | cons x rest =>
      rw [db_insert, update_index, if_neg hmem, if_pos (by simpa using hlen)]
      simp

theorem claim_C4_witness :
    ("a" : String) ∉ ([] : List String) ∧ ([] : List String).length < 20 ∧
    db_insert 20 [] [] "a" []
      = Except.ok (storePut [] "a" (pySetItem [] "_id" (.str "a")), [] ++ ["a"]) :=
  ⟨by simp, by norm_num,
   (claim_C4 20 [] [] "a" []).2.1 (by simp) (by norm_num)⟩

/-! ## Claim C10 -/

/-- Claim C10, as stated, is false on the code for `index_size = 0`:
Python's `all_ids[-0:]` is the *whole* listing (`-0 == 0`), so
`rebuild_index` on a store with one record produces an index of length
1 > 0, violating the bound it was supposed to preserve. -/
theorem claim_C10_counterexample :
    rebuild_index 0 [("a", [("_id", .str "a")])] = ["a"] ∧
    ¬ ((["a"] : List String).length ≤ 0) := by
  constructor
  · rw [rebuild_index, list_all]
    simp [pyLastSlice]
  · simp

/-- Claim C10 (amended): for `index_size = n ≥ 1` the bounded-index
invariant holds: `insert` (via `_update_index`), `delete` and
`rebuild_index` all preserve `len(search_index) ≤ n` (and `update`
does not touch the index at all); moreover, when the index is full and
the id is new, `_update_index` evicts exactly the oldest entry (FIFO)
and appends the new id. -/
theorem claim_C10 :
    ∀ n : ℕ, 1 ≤ n →
      (∀ (s : Store) (idx : List String) (id : String) (data : Obj)
        (s' : Store) (idx' : List String),
        idx.length ≤ n →
        db_insert n s idx id data = Except.ok (s', idx') →
        idx'.length ≤ n) ∧
      (∀ (s : Store) (idx : List String) (id : String),
        idx.length ≤ n → ((db_delete s idx id).2).length ≤ n) ∧
      (∀ s : Store, (rebuild_index n s).length ≤ n) ∧
      (∀ (idx : List String) (id : String),
        idx.length = n → id ∉ idx →
        update_index n idx id = Except.ok (idx.tail ++ [id])) := by
  intro n hn
  refine ⟨?_, ?_, ?_, ?_⟩
  · intro s idx id data s' idx' hlen hins
    rw [db_insert] at hins
    rcases hu : update_index n idx id with e | idx''
    · rw [hu] at hins; cases hins
    · rw [hu] at hins
      simp at hins
      obtain ⟨-, hidx⟩ := hins
      subst hidx
      rw [update_index.eq_def] at hu
      by_cases hmem : id ∈ idx
      · rw [if_pos hmem] at hu
        simp at hu
        subst hu
        exact hlen
      · rw [if_neg hmem] at hu
        by_cases hfull : n ≤ idx.length
        · rw [if_pos hfull] at hu
          cases idx with
          | nil => simp at hu
          | cons x rest =>
            simp at hu
            subst hu
            simp at hlen ⊢
            omega
        · rw [if_neg hfull] at hu
          simp at hu
          subst hu
          simp
          omega
  · intro s idx id hlen
    rw [db_delete]
    by_cases hmem : id ∈ idx
    · simp only [if_pos hmem]
      have := List.length_erase_of_mem hmem
      simp
      omega
    · simpa [if_neg hmem] using hlen
  · intro s
    rw [rebuild_index, pyLastSlice, if_neg (by omega)]
    simp
    omega
  · intro idx id hlen hmem
    rw [update_index.eq_def, if_neg hmem, if_pos (by omega)]
    cases idx with
    | nil => simp at hlen; omega
    | cons x rest => simp

theorem claim_C10_witness :
    (1 : ℕ) ≤ 1 ∧
    (["b"] : List String).length = 1 ∧ ("a" : String) ∉ (["b"] : List String) ∧
    update_index 1 ["b"] "a" = Except.ok ((["b"] : List String).tail ++ ["a"]) ∧
    (rebuild_index 1 []).length ≤ 1 :=
  ⟨le_rfl, by simp, by simp,
   (claim_C10 1 le_rfl).2.2.2 ["b"] "a" (by simp) (by simp),
   (claim_C10 1 le_rfl).2.2.1 []⟩

/-! ## Claim C7 -/

/-- Claim C7, as stated, is false on the code: `_load_index` only
catches `ClientError`, so a stored body that `json.loads` cannot parse
raises `json.JSONDecodeError` out of `_load_index` instead of falling
back to the empty index (and a body that parses to a non-object raises
`AttributeError` at `.get`). -/
theorem claim_C7_counterexample :
    load_index IndexFetch.malformed
      = Except.error "json.decoder.JSONDecodeError" ∧
    (∀ v : PyVal, load_index IndexFetch.malformed ≠ Except.ok v) ∧
    load_index (IndexFetch.doc (.list []))
      = Except.error "AttributeError" := by
  refine ⟨rfl, ?_, rfl⟩
  intro v
  simp [load_index]

/-- Claim C7 (amended): a missing index document (`NoSuchKey`) and any
other `ClientError` on the GET are treated as an empty index, and a
parsed JSON *object* without an `'index'` key also yields the empty
list; but a body that does not parse as JSON raises (no fallback), as
does a parsed non-object document. -/
theorem claim_C7 :
    load_index IndexFetch.noSuchKey = Except.ok (.list []) ∧
    load_index IndexFetch.clientError = Except.ok (.list []) ∧
    (∀ kvs : List (String × PyVal), pyGet kvs "index" = Option.none →
      load_index (IndexFetch.doc (.dict kvs)) = Except.ok (.list [])) ∧
    (∀ v : PyVal, load_index IndexFetch.malformed ≠ Except.ok v) ∧
    (∀ j : PyVal, j.ty ≠ PyType.dictT →
      load_index (IndexFetch.doc j) = Except.error "AttributeError") := by
  refine ⟨rfl, rfl, fun kvs h => ?_, fun v => by simp [load_index], fun j hj => ?_⟩
  · simp [load_index, h]
  · cases j with
    | dict kvs => simp [PyVal.ty] at hj
    | none => rfl
    | bool b => rfl
    | int n => rfl
    | float q => rfl
    | str s => rfl
    | list xs => rfl

theorem claim_C7_witness :
    pyGet [("config", PyVal.int 3)] "index" = Option.none ∧
    load_index (IndexFetch.doc (.dict [("config", PyVal.int 3)]))
      = Except.ok (.list []) ∧
    PyVal.ty (.str "oops") ≠ PyType.dictT ∧
    load_index (IndexFetch.doc (.str "oops")) = Except.error "AttributeError" :=
  ⟨by simp [pyGet], claim_C7.2.2.1 [("config", PyVal.int 3)] (by simp [pyGet]),
   by decide, claim_C7.2.2.2.2 (.str "oops") (by decide)⟩

/-! ## Claim C9 -/

theorem strListOfVals_map (l : List String) :
    strListOfVals (l.map PyVal.str) = Option.some l := by
  induction l with
  | nil => rfl
  | cons x xs ih => simp [strListOfVals, ih]

/-- Claim C9: saving the index and loading it back from the same store
yields the same id list, and therefore identical `find_similar`
results (ids, objects and distances) for every store, query, `k` and
distance threshold. -/
theorem claim_C9 :
    ∀ (idx : List String) (cfg : DBConfig) (s : Store) (q : Obj)
      (k : ℤ) (md : Option ℚ),
      reloaded_index idx cfg = idx ∧
      find_similar s (reloaded_index idx cfg) q k md
        = find_similar s idx q k md := by
  intro idx cfg s q k md
  have h : reloaded_index idx cfg = idx := by
    rw [reloaded_index]
    simp [load_index, save_index_doc, pyGet, strListOfPyVal,
      strListOfVals_map]
  exact ⟨h, by rw [h]⟩

/-! ## Claim C2 -/

/-- The record object as stored by `insert`: the data with `_id` set. -/
def objOf (r : String × Obj) : Obj := pySetItem r.2 "_id" (.str r.1)

/-- One entry of the spec's linear scan: `(id, distance(q, record))`,
the record being the stored form (with `_id`). -/
def scanEntry (q : Obj) (r : String × Obj) : String × ℚ :=
  (r.1, custom_json_distance q (objOf r))

/-- Modelled from the spec: the tie-break order of §4.3/§8 — "sorts all
of R by distance to q … with equal-distance ties resolved by ascending
record id". -/
def leById (a b : String × ℚ) : Bool :=
  decide (a.2 < b.2) || (decide (a.2 = b.2) && decide (a.1 ≤ b.1))

/-- Modelled from the spec: the full linear scan with ties by ascending
id, taking the first `k` ids. -/
def linearScanById (R : List (String × Obj)) (q : Obj) (k : ℤ) :
    List String :=
  pySlice (((R.map (scanEntry q)).mergeSort leById).map Prod.fst) k

/-- Comparison of scan entries by distance alone. -/
def distPairLE (a b : String × ℚ) : Bool := decide (a.2 ≤ b.2)

/-- The linear scan sorted by distance with equal-distance ties resolved
by *position* in the scan (insertion order), taking the first `k`
ids. -/
def linearScanByPos (R : List (String × Obj)) (q : Obj) (k : ℤ) :
    List String :=
  pySlice (((R.map (scanEntry q)).enum.mergeSort
    (List.enumLE distPairLE)).map (fun p => p.2.1)) k

theorem storePut_fresh {s : Store} {id : String}
    (h : id ∉ s.map Prod.fst) (o : Obj) : storePut s id o = s ++ [(id, o)] := by
  induction s with
  | nil => rfl
  | cons kv rest ih =>
    obtain ⟨i, x⟩ := kv
    simp only [List.map_cons, List.mem_cons] at h
    push_neg at h
    rw [storePut, if_neg (fun he => h.1 he.symm)]
    simp [ih h.2]

theorem insertAll_go (n : ℕ) :
    ∀ (R : List (String × Obj)) (s0 : Store) (idx0 : List String),
    idx0.length + R.length ≤ n →
    (∀ r ∈ R, r.1 ∉ idx0 ∧ r.1 ∉ s0.map Prod.fst) →
    (R.map Prod.fst).Nodup →
    R.foldlM (fun st r => db_insert n st.1 st.2 r.1 r.2) (s0, idx0) =
      Except.ok (s0 ++ R.map (fun r => (r.1, objOf r)), idx0 ++ R.map Prod.fst) := by
  intro R
  induction R with
  | nil => intro s0 idx0 _ _ _; simp [pure, Except.pure]
  | cons r R' ih =>
    intro s0 idx0 hlen hfresh hnd
    have hr := hfresh r (List.mem_cons_self _ _)
    have hR' := fun r' hr' => hfresh r' (List.mem_cons_of_mem _ hr')
    simp only [List.map_cons] at hnd
    have hnd' := List.nodup_cons.mp hnd
    have hins : db_insert n s0 idx0 r.1 r.2
        = Except.ok (s0 ++ [(r.1, objOf r)], idx0 ++ [r.1]) := by
      rw [db_insert, update_index.eq_def, if_neg hr.1,
        if_neg (by simp at hlen; omega), storePut_fresh hr.2]
      rfl
    rw [List.foldlM_cons, hins]
    have hstep := ih (s0 ++ [(r.1, objOf r)]) (idx0 ++ [r.1])
      (by simp at hlen ⊢; omega)
      (by
        intro r' hr'
        have hne : r'.1 ≠ r.1 := by
          intro he
          exact hnd'.1 (he ▸ List.mem_map_of_mem Prod.fst hr')
        refine ⟨?_, ?_⟩
        · simp only [List.mem_append, List.mem_singleton]
          rintro (h | h)
          · exact (hR' r' hr').1 h
          · exact hne h
        · simp only [List.map_append, List.mem_append, List.map_cons,
            List.map_nil, List.mem_singleton, List.mem_cons]
          rintro (h | h)
          · exact (hR' r' hr').2 h
          · rcases h with h | h
            · exact hne h
            · cases h)
      hnd'.2
    simp only [List.map_cons]
    rw [show (Except.ok (s0 ++ [(r.1, objOf r)], idx0 ++ [r.1]) >>=
        fun st => R'.foldlM (fun st r => db_insert n st.1 st.2 r.1 r.2) st) =
        R'.foldlM (fun st r => db_insert n st.1 st.2 r.1 r.2)
          (s0 ++ [(r.1, objOf r)], idx0 ++ [r.1]) from rfl, hstep]
    simp

/-- Inserting a duplicate-free record list that fits in the index gives
the expected store and index. -/
theorem insertAll_spec {n : ℕ} {R : List (String × Obj)}
    (hlen : R.length ≤ n) (hnd : (R.map Prod.fst).Nodup) :
    insertAll n R
      = Except.ok (R.map (fun r => (r.1, objOf r)), R.map Prod.fst) := by
  have := insertAll_go n R [] [] (by simpa using hlen) (by simp) hnd
  simpa [insertAll] using this

theorem storeGet_of_mem_nodup {s : Store} {k : String} {o : Obj}
    (hm : (k, o) ∈ s) (hnd : (s.map Prod.fst).Nodup) :
    storeGet s k = Option.some o := by
  induction s with
  | nil => cases hm
  | cons kv rest ih =>
    obtain ⟨k', w⟩ := kv
    simp at hnd
    rcases List.mem_cons.mp hm with he | hm'
    · rw [Prod.mk.injEq] at he
      obtain ⟨rfl, rfl⟩ := he
      simp [storeGet]
    · have hne : k' ≠ k := by
        intro he'
        exact hnd.1 o (he' ▸ hm')
      simp [storeGet, hne]
      exact ih hm' hnd.2

theorem pySetItem_ne_nil (o : Obj) (k : String) (v : PyVal) :
    pySetItem o k v ≠ [] := by
  cases o with
  | nil => simp [pySetItem]
  | cons kv rest =>
    obtain ⟨k', w⟩ := kv
    rw [pySetItem]
    split <;> simp

theorem objOf_isEmpty (r : String × Obj) : (objOf r).isEmpty = false := by
  rw [objOf]
  cases h : pySetItem r.2 "_id" (.str r.1) with
  | nil => exact absurd h (pySetItem_ne_nil _ _ _)
  | cons p rest => simp

/-- Unfolding one step of the candidate scan (no distance limit). -/
theorem candidates_none_cons (s : Store) (q : Obj) (id : String)
    (idx : List String) :
    candidates s (id :: idx) q Option.none =
      (match storeGet s id with
       | Option.some obj =>
           if obj.isEmpty then candidates s idx q Option.none
           else (id, obj, custom_json_distance q obj)
             :: candidates s idx q Option.none
       | Option.none => candidates s idx q Option.none) := by
  rw [candidates, candidates, List.filterMap_cons]
  cases storeGet s id with
  | none => rfl
  | some obj =>
    by_cases h : obj.isEmpty <;> simp [h]

/-- When every scanned id resolves to its stored record, the candidate
list is the full record list with distances. -/
theorem candidates_of_lookup :
    ∀ (R : List (String × Obj)) (s : Store) (q : Obj),
    (∀ r ∈ R, storeGet s r.1 = Option.some (objOf r)) →
    candidates s (R.map Prod.fst) q Option.none
      = R.map (fun r => (r.1, objOf r, custom_json_distance q (objOf r))) := by
  intro R s q h
  induction R with
  | nil => simp [candidates]
  | cons r R' ih =>
    have hr := h r (List.mem_cons_self _ _)
    have hR' := fun r' hr' => h r' (List.mem_cons_of_mem _ hr')
    simp only [List.map_cons]
    rw [candidates_none_cons, hr]
    simp only [objOf_isEmpty, Bool.false_eq_true, if_false]
    rw [ih hR']

/-- The ids of the stable sort by distance coincide with the ids of the
lexicographic (distance, scan position) sort: Python's stable
`results.sort(key=lambda x: x[2])` breaks ties by position. -/
theorem sorted_ids_eq (R : List (String × Obj)) (q : Obj) :
    (((R.map (fun r => (r.1, objOf r, custom_json_distance q (objOf r)))).mergeSort
        distLE).map (fun t : SearchHit => t.1))
      = ((R.map (scanEntry q)).enum.mergeSort
          (List.enumLE distPairLE)).map (fun p => p.2.1) := by
  have h1 : (((R.map (fun r => (r.1, objOf r, custom_json_distance q (objOf r)))).mergeSort
        distLE).map (fun t : SearchHit => (t.1, t.2.2)))
      = (((R.map (fun r => (r.1, objOf r, custom_json_distance q (objOf r)))).map
          (fun t : SearchHit => (t.1, t.2.2))).mergeSort distPairLE) :=
    List.map_mergeSort (fun a _ b _ => rfl)
  have h2 : ((R.map (fun r => (r.1, objOf r, custom_json_distance q (objOf r)))).map
      (fun t : SearchHit => (t.1, t.2.2))) = R.map (scanEntry q) := by
    rw [List.map_map]
    rfl
  have h3 : ((R.map (scanEntry q)).mergeSort distPairLE)
      = ((R.map (scanEntry q)).enum.mergeSort
          (List.enumLE distPairLE)).map (fun p => p.2) :=
    (List.mergeSort_enum).symm
  calc (((R.map (fun r => (r.1, objOf r, custom_json_distance q (objOf r)))).mergeSort
        distLE).map (fun t : SearchHit => t.1))
      = ((((R.map (fun r => (r.1, objOf r, custom_json_distance q (objOf r)))).mergeSort
          distLE).map (fun t : SearchHit => (t.1, t.2.2))).map Prod.fst) := by
        rw [List.map_map]; rfl
    _ = (((R.map (scanEntry q)).mergeSort distPairLE).map Prod.fst) := by
        rw [h1, h2]
    _ = ((R.map (scanEntry q)).enum.mergeSort
          (List.enumLE distPairLE)).map (fun p => p.2.1) := by
        rw [h3, List.map_map]
        rfl

theorem pySlice_map {α β : Type} (f : α → β) (xs : List α) (k : ℤ) :
    (pySlice xs k).map f = pySlice (xs.map f) k := by
  rw [pySlice, pySlice, List.map_take, List.length_map]

/-- Claim C2, as stated, is false on the code: with two equidistant
records inserted in the order `"b"`, `"a"`, `find_similar` with `k = 1`
returns `{"b"}` (Python's stable sort keeps insertion order on ties),
while the spec's linear scan with ties by ascending id returns
`{"a"}`. -/
theorem claim_C2_counterexample :
    insertAll 20 [("b", [("x", .int 1)]), ("a", [("x", .int 1)])]
      = Except.ok ([("b", [("x", .int 1), ("_id", .str "b")]),
                    ("a", [("x", .int 1), ("_id", .str "a")])], ["b", "a"]) ∧
    ((find_similar [("b", [("x", .int 1), ("_id", .str "b")]),
        ("a", [("x", .int 1), ("_id", .str "a")])] ["b", "a"] query3 1
        Option.none).map (fun t : SearchHit => t.1)) = ["b"] ∧
    linearScanById [("b", [("x", .int 1)]), ("a", [("x", .int 1)])]
      query3 1 = ["a"] ∧
    (["b"] : List String).toFinset ≠ (["a"] : List String).toFinset := by
  have hx : strStartsWith "x" "_" = false := by decide
  have hi : strStartsWith "_id" "_" = true := by decide
  have hd : ∀ v : PyVal,
      custom_json_distance query3 [("x", .int 1), ("_id", v)] = 0 := by
    intro v
    simp [query3, custom_json_distance, fieldDist, pyGet, hx, hi,
      numContrib, List.dedup_cons_of_not_mem, List.dedup_cons_of_mem,
      List.dedup_nil]
  refine ⟨?_, ?_, ?_, ?_⟩
  · simp [insertAll, db_insert, update_index, pySetItem, storePut,
      List.foldlM, Except.bind, bind, pure, Except.pure]
  · have hc : candidates [("b", [("x", .int 1), ("_id", .str "b")]),
        ("a", [("x", .int 1), ("_id", .str "a")])] ["b", "a"] query3
        Option.none
        = [("b", [("x", .int 1), ("_id", .str "b")], 0),
           ("a", [("x", .int 1), ("_id", .str "a")], 0)] := by
      simp [candidates, storeGet, hd]
    rw [find_similar, sortedResults, hc,
      List.mergeSort_of_sorted (by simp [List.pairwise_cons, distLE])]
    simp [pySlice]
  · rw [linearScanById]
    have he : ([("b", [("x", PyVal.int 1)]),
        ("a", [("x", PyVal.int 1)])].map (scanEntry query3))
        = [("b", 0), ("a", 0)] := by
      simp [scanEntry, objOf, pySetItem, hd]
    rw [he, mergeSort_pair, if_neg ?hba]
    case hba =>
      have hba : ¬ (("b" : String) ≤ "a") := by
        simp
        decide
      simp [leById, hba]
    simp [pySlice]
  · simp

/-- Claim C2 (amended): after inserting the records of `R` (distinct
ids, `|R| ≤ index_size`, so that all of them remain indexed — larger
`R` would lose its oldest entries to FIFO eviction), `find_similar`
returns the same set of record ids as the linear scan over `R` that
sorts by distance to the query with equal-distance ties resolved by
*insertion position* (Python's stable sort), not by ascending record
id, and takes the first `k`. -/
theorem claim_C2 :
    ∀ (n : ℕ) (R : List (String × Obj)) (q : Obj) (k : ℤ)
      (s : Store) (idx : List String),
    (R.map Prod.fst).Nodup → R.length ≤ n →
    insertAll n R = Except.ok (s, idx) →
    ((find_similar s idx q k Option.none).map
        (fun t : SearchHit => t.1)).toFinset
      = (linearScanByPos R q k).toFinset := by
  intro n R q k s idx hnd hlen hins
  rw [insertAll_spec hlen hnd] at hins
  simp only [Except.ok.injEq, Prod.mk.injEq] at hins
  obtain ⟨rfl, rfl⟩ := hins
  have hkeys : ((R.map (fun r => (r.1, objOf r))).map Prod.fst) = R.map Prod.fst := by
    rw [List.map_map]
    rfl
  have hlook : ∀ r ∈ R,
      storeGet (R.map (fun r => (r.1, objOf r))) r.1
        = Option.some (objOf r) := by
    intro r hr
    refine storeGet_of_mem_nodup ?_ (by rw [hkeys]; exact hnd)
    exact List.mem_map_of_mem _ hr
  have hc := candidates_of_lookup R (R.map (fun r => (r.1, objOf r))) q hlook
  rw [find_similar, sortedResults, hc, linearScanByPos, pySlice_map,
    sorted_ids_eq R q]

theorem claim_C2_witness :
    (([("r", ([] : Obj))].map Prod.fst).Nodup) ∧
    ([("r", ([] : Obj))].length ≤ 20) ∧
    insertAll 20 [("r", ([] : Obj))]
      = Except.ok ([("r", [("_id", .str "r")])], ["r"]) ∧
    ((find_similar [("r", [("_id", .str "r")])] ["r"] [] 1
        Option.none).map (fun t : SearchHit => t.1)).toFinset
      = (linearScanByPos [("r", ([] : Obj))] [] 1).toFinset :=
  ⟨by simp, by norm_num,
   by simp [insertAll, db_insert, update_index, pySetItem, storePut,
        List.foldlM, Except.bind, bind, pure, Except.pure],
   claim_C2 20 [("r", ([] : Obj))] [] 1 _ _ (by simp) (by norm_num)
     (by simp [insertAll, db_insert, update_index, pySetItem, storePut,
        List.foldlM, Except.bind, bind, pure, Except.pure])⟩
